import Mathlib

/-!
Verification of `mr/fitting.py` (per-column nonlinear least-squares fitting).

Shallow embedding conventions:
* A floating-point value that may be NaN (or ±inf: the code runs the whole
  per-column loop under `pd.set_option('use_inf_as_null', True)`, so pandas
  treats infinities exactly like NaN for `dropna`, `fillna` and `mean`) is
  modelled as `Option ℚ`, with `none` standing for an invalid entry.
* `np.log` is modelled as an uninterpreted elementwise partial function
  `lg : ℚ → Option ℚ` (log of a non-positive argument produces NaN / -inf,
  i.e. `none` under the active option).  None of the verified properties
  depend on the numeric values of the logarithm, only on its elementwise
  application and possible invalidity, so an abstract `lg` is faithful.
* `scipy.optimize.leastsq` and `scipy.stats.linregress` are external
  capabilities (spec §6); they enter as function parameters.  `np.exp` is
  likewise an uninterpreted `ℚ → ℚ` parameter of `fit_powerlaw`.
* A Python exception propagating to the caller is modelled with
  `Except String`; the `Warning` raised by `parse_output` plays the role the
  design document calls `FitConvergenceError`.
-/

namespace MrFitting

/-- A label of a pandas index position: either a string label or a
positional integer. -/
inductive PLabel where
  | str (s : String)
  | num (n : ℕ)
  deriving DecidableEq, Repr

/-- A pandas `DataFrame` indexed by the exogenous variable: the (float64)
index values and the named columns.  A `Series` input is the one-column
case (`DataFrame(data)` in the source converts it).  Entries are
`Option ℚ`, `none` being NaN (or ±inf while `use_inf_as_null` is on). -/
structure DataFrame where
  index : List ℚ
  cols : List (String × List (Option ℚ))
  deriving Repr

/-- Well-formedness: every column has one entry per index value. -/
def DataFrame.wf (df : DataFrame) : Prop :=
  ∀ c ∈ df.cols, c.2.length = df.index.length

/-- Row `i` has no missing value in any column (the `how='any'` test used by
`DataFrame.dropna()` with no arguments). -/
def validRow (df : DataFrame) (i : ℕ) : Bool :=
  df.cols.all (fun c => (c.2.getD i none).isSome)

/-- `data = data.dropna()` (fitting.py lines 60 and 138): drop every row of
the whole table that has a missing value in any column. -/
def dropna (df : DataFrame) : DataFrame :=
  let keep := (List.range df.index.length).filter (validRow df)
  { index := keep.map (fun i => df.index.getD i 0),
    cols := df.cols.map (fun c => (c.1, keep.map (fun i => c.2.getD i none))) }

/-- The output 5-tuple of `scipy.optimize.leastsq(..., full_output=True)`:
solution vector `x`, diagnostic message `mesg`, integer status `ier`.
(`cov_x` and `infodict` are never consumed by this module and are omitted.) -/
structure SolverOutput where
  x : List ℚ
  mesg : String
  ier : ℤ
  deriving Repr

/-- `parse_output` (fitting.py lines 25-30): status codes 1-4 return the
solution unchanged; any other status raises a `Warning` (the design's
`FitConvergenceError`) whose message embeds the solver diagnostic. -/
def parse_output (output : SolverOutput) : Except String (List ℚ) :=
  if ¬ output.ier ∈ ([1, 2, 3, 4] : List ℤ) then
    .error ("A solution was not found. Message:\n" ++ output.mesg)
  else
    .ok output.x

/-- The container of initial guess parameters.  The source probes
`guess_params.index` inside `try: ... except:`: the container may carry a
genuine pandas index (`valid`), carry something that is not a
`pd.core.index.Index` subclass — or make the probe blow up in any other way
(`malformed`) — or carry no index at all (`noindex`). -/
inductive GuessIndex where
  | noindex
  | malformed
  | valid (labels : List PLabel)
  deriving DecidableEq, Repr

/-- Guess parameters: the float values plus the (possibly absent or
malformed) label metadata. -/
structure GuessParams where
  values : List ℚ
  gindex : GuessIndex
  deriving Repr

/-- The `try/except` block of fitting.py lines 62-68 / 140-146: keep the
guess container's index when it is a real pandas `Index`; on any failure
(no `.index` attribute, wrong type, ...) fall back silently to
`np.arange(len(guess_params))`. -/
def param_index (gp : GuessParams) : List PLabel :=
  match gp.gindex with
  | .valid ls => ls
  | _ => (List.range gp.values.length).map PLabel.num

/-- Elementwise subtraction with NaN propagation. -/
def osub (a b : Option ℚ) : Option ℚ :=
  match a, b with
  | some x, some y => some (x - y)
  | _, _ => none

/-- `np.log` applied to a possibly-NaN value: NaN propagates, and the
partial-function `lg` models the log itself (none on the non-positive
domain, where numpy yields NaN or -inf). -/
def olog (lg : ℚ → Option ℚ) (a : Option ℚ) : Option ℚ :=
  a.bind lg

/-- The residual series `e` as built inside the per-column closures of both
`fit` (lines 72-87) and `bound_fit` (lines 151-168), before any `fillna`:

* `exog_columns = False`: predicted `f = data_index.apply(lambda x: func(x, *params))`,
  residual `data[col] - f`, or `np.log(data[col]) - np.log(f)` when
  `log_residual`;
* `exog_columns = True`: the roles swap — `f = data[col].apply(...)`,
  residual `data_index - f`, or the log version. -/
def raw_residual (lg : ℚ → Option ℚ) (func : ℚ → List ℚ → Option ℚ)
    (index : List ℚ) (colVals : List (Option ℚ))
    (log_residual exog_columns : Bool) (params : List ℚ) : List (Option ℚ) :=
  if exog_columns = false then
    let f := index.map (fun x => func x params)
    if log_residual then
      List.zipWith (fun y p => osub (olog lg y) (olog lg p)) colVals f
    else
      List.zipWith (fun y p => osub y p) colVals f
  else
    let f := colVals.map (fun o => o.bind (fun x => func x params))
    if log_residual then
      List.zipWith (fun y p => osub (olog lg (some y)) (olog lg p)) index f
    else
      List.zipWith (fun y p => osub (some y) p) index f

/-- The error function handed to the solver by `fit`: the residual with
every invalid entry masked to exactly 0 (`.fillna(0)`, lines 76, 78, 84, 86). -/
def fit_err (lg : ℚ → Option ℚ) (func : ℚ → List ℚ → Option ℚ)
    (index : List ℚ) (colVals : List (Option ℚ))
    (log_residual exog_columns : Bool) (params : List ℚ) : List (Option ℚ) :=
  (raw_residual lg func index colVals log_residual exog_columns params).map
    (fun o => some (o.getD 0))

/-- `e.mean()` on a pandas series: the mean of the valid entries, NaN when
there is none. -/
def omean (e : List (Option ℚ)) : Option ℚ :=
  let v := e.filterMap id
  if v.length = 0 then none else some (v.sum / (v.length : ℚ))

/-- The error function handed to the solver by `bound_fit`: in the
`log_residual` branch invalid entries are filled with `2*e.mean()`
(lines 156, 165; the mean is taken over the valid entries, and when the
mean itself is NaN the fill leaves the entries invalid); in the linear
branch the residual is returned with no fill at all (lines 158, 167). -/
def bound_err (lg : ℚ → Option ℚ) (func : ℚ → List ℚ → Option ℚ)
    (index : List ℚ) (colVals : List (Option ℚ))
    (log_residual exog_columns : Bool) (params : List ℚ) : List (Option ℚ) :=
  let e := raw_residual lg func index colVals log_residual exog_columns params
  if log_residual then
    e.map (fun o =>
      match o with
      | some x => some x
      | none => (omean e).map (fun m => 2 * m))
  else
    e

/-- An error-vector function as `optimize.leastsq` receives it: parameters
to residual vector (entries may be NaN). -/
def ErrFn : Type := List ℚ → List (Option ℚ)

/-- The fit result table, after the final transpose `fits.T`: rows labelled
by the input data columns, columns labelled by the parameter index
(`entries` is row-major). -/
structure Table where
  rowLabels : List PLabel
  colLabels : List PLabel
  entries : List (List ℚ)
  deriving Repr

/-- The `for col in data:` loop of `fit` (lines 71-90): build the closure,
call the solver, parse its output; the first non-convergent column raises
and aborts the whole loop. -/
def fit_cols (leastsq : ErrFn → List ℚ → SolverOutput) (lg : ℚ → Option ℚ)
    (func : ℚ → List ℚ → Option ℚ) (index : List ℚ) (guess : List ℚ)
    (log_residual exog_columns : Bool) :
    List (String × List (Option ℚ)) → Except String (List (List ℚ))
  | [] => .ok []
  | c :: rest => do
    let output := leastsq (fit_err lg func index c.2 log_residual exog_columns) guess
    let best_params ← parse_output output
    let others ← fit_cols leastsq lg func index guess log_residual exog_columns rest
    pure (best_params :: others)

/-- `fit` on already-dropna'd data: lines 61-92 (index coercion, parameter
index extraction, the per-column loop, the transpose). -/
def fit_loop (leastsq : ErrFn → List ℚ → SolverOutput) (lg : ℚ → Option ℚ)
    (func : ℚ → List ℚ → Option ℚ) (df : DataFrame) (gp : GuessParams)
    (log_residual exog_columns : Bool) : Except String Table := do
  let pidx := param_index gp
  let rows ← fit_cols leastsq lg func df.index gp.values log_residual exog_columns df.cols
  pure { rowLabels := df.cols.map (fun c => PLabel.str c.1),
         colLabels := pidx,
         entries := rows }

/-- `fit(data, func, guess_params, log_residual, exog_columns)`
(fitting.py lines 32-92). -/
def fit (leastsq : ErrFn → List ℚ → SolverOutput) (lg : ℚ → Option ℚ)
    (func : ℚ → List ℚ → Option ℚ) (df : DataFrame) (gp : GuessParams)
    (log_residual exog_columns : Bool) : Except String Table :=
  fit_loop leastsq lg func (dropna df) gp log_residual exog_columns

/-- The `for col in data:` loop of `bound_fit` (lines 149-172): untransform
the guess with the current column's data, solve in the unconstrained space,
transform the solution back with the same column's data. -/
def bound_cols (leastsq : ErrFn → List ℚ → SolverOutput) (lg : ℚ → Option ℚ)
    (func : ℚ → List ℚ → Option ℚ)
    (transform untransform : List (Option ℚ) → List ℚ → List ℚ)
    (index : List ℚ) (guess : List ℚ) (log_residual exog_columns : Bool) :
    List (String × List (Option ℚ)) → Except String (List (List ℚ))
  | [] => .ok []
  | c :: rest => do
    let ut_guess_params := untransform c.2 guess
    let output := leastsq (bound_err lg func index c.2 log_residual exog_columns)
      ut_guess_params
    let ut_best_params ← parse_output output
    let t_best_params := transform c.2 ut_best_params
    let others := bound_cols leastsq lg func transform untransform index guess
      log_residual exog_columns rest
    let rest_rows ← others
    pure (t_best_params :: rest_rows)

/-- `bound_fit` on already-dropna'd data: lines 139-174. -/
def bound_loop (leastsq : ErrFn → List ℚ → SolverOutput) (lg : ℚ → Option ℚ)
    (func : ℚ → List ℚ → Option ℚ)
    (transform untransform : List (Option ℚ) → List ℚ → List ℚ)
    (df : DataFrame) (gp : GuessParams)
    (log_residual exog_columns : Bool) : Except String Table := do
  let pidx := param_index gp
  let rows ← bound_cols leastsq lg func transform untransform df.index gp.values
    log_residual exog_columns df.cols
  pure { rowLabels := df.cols.map (fun c => PLabel.str c.1),
         colLabels := pidx,
         entries := rows }

/-- `bound_fit(data, func, guess_params, transform, untransform,
log_residual, exog_columns)` (fitting.py lines 105-174). -/
def bound_fit (leastsq : ErrFn → List ℚ → SolverOutput) (lg : ℚ → Option ℚ)
    (func : ℚ → List ℚ → Option ℚ)
    (transform untransform : List (Option ℚ) → List ℚ → List ℚ)
    (df : DataFrame) (gp : GuessParams)
    (log_residual exog_columns : Bool) : Except String Table :=
  bound_loop leastsq lg func transform untransform (dropna df) gp
    log_residual exog_columns

/-- The process-wide pandas option state touched by `fit` and `bound_fit`. -/
structure PdOptions where
  use_inf_as_null : Bool
  deriving DecidableEq, Repr

/-- `fit` together with its global-option side effect: the option is set to
`True` first (line 59); `pd.reset_option` (line 91) restores the default
`False` — but only on the success path, an exception in the loop propagates
past it. -/
def fit_state (leastsq : ErrFn → List ℚ → SolverOutput) (lg : ℚ → Option ℚ)
    (func : ℚ → List ℚ → Option ℚ) (df : DataFrame) (gp : GuessParams)
    (log_residual exog_columns : Bool) (opts : PdOptions) :
    Except String Table × PdOptions :=
  let opts1 : PdOptions := { opts with use_inf_as_null := true }
  match fit leastsq lg func df gp log_residual exog_columns with
  | .error m => (.error m, opts1)
  | .ok t => (.ok t, { opts1 with use_inf_as_null := false })

/-- `bound_fit` with its global-option side effect (lines 137 and 173). -/
def bound_fit_state (leastsq : ErrFn → List ℚ → SolverOutput)
    (lg : ℚ → Option ℚ) (func : ℚ → List ℚ → Option ℚ)
    (transform untransform : List (Option ℚ) → List ℚ → List ℚ)
    (df : DataFrame) (gp : GuessParams)
    (log_residual exog_columns : Bool) (opts : PdOptions) :
    Except String Table × PdOptions :=
  let opts1 : PdOptions := { opts with use_inf_as_null := true }
  match bound_fit leastsq lg func transform untransform df gp
      log_residual exog_columns with
  | .error m => (.error m, opts1)
  | .ok t => (.ok t, { opts1 with use_inf_as_null := false })

/-- `fit_powerlaw(data)` (fitting.py lines 95-103).  `linregress` is the
external OLS capability (only slope and intercept are consumed, so it is
modelled as returning that pair) and `exp` models `np.exp`.  Each column
yields `Series([slope, np.exp(intercept)], index=['A','n'])` — note the
source puts the slope in the 'A' slot — and `pd.concat(fits, axis=1,
keys=data.columns)` stacks those Series as columns, so the result has rows
'A','n' and one column per input column (there is no transpose here). -/
def fit_powerlaw (linregress : List ℚ → List (Option ℚ) → ℚ × ℚ)
    (exp : ℚ → ℚ) (df : DataFrame) : Table :=
  let fits := df.cols.map (fun c => linregress df.index c.2)
  { rowLabels := [PLabel.str "A", PLabel.str "n"],
    colLabels := df.cols.map (fun c => PLabel.str c.1),
    entries := [fits.map (fun si => si.1), fits.map (fun si => exp si.2)] }

/-- Look up a cell of a result table by row and column label. -/
def Table.cell (t : Table) (r c : PLabel) : Option ℚ :=
  if r ∈ t.rowLabels ∧ c ∈ t.colLabels then
    some ((t.entries.getD (t.rowLabels.indexOf r) []).getD (t.colLabels.indexOf c) 0)
  else none

/-! Concrete instantiations of the external capabilities and small concrete
datasets, used to exercise the theorems below on closed inputs. -/

/-- A solver that reports success (`ier = 1`) and echoes the guess. -/
def lsOK : ErrFn → List ℚ → SolverOutput := fun _ g => ⟨g, "ok", 1⟩

/-- A solver that reports a convergence failure (`ier = 5`). -/
def lsFail : ErrFn → List ℚ → SolverOutput := fun _ g => ⟨g, "no conv", 5⟩

/-- A concrete stand-in for `np.log`: undefined on the non-positive reals. -/
def lgEx : ℚ → Option ℚ := fun x => if x ≤ 0 then none else some x

/-- A concrete total model function. -/
def funcEx : ℚ → List ℚ → Option ℚ := fun x _ => some x

/-- A concrete model function that is invalid at 0. -/
def funcNaN : ℚ → List ℚ → Option ℚ := fun x _ => if x = 0 then none else some 1

/-- A one-column concrete dataset with no missing values. -/
def exDF : DataFrame := ⟨[1, 2], [("a", [some 1, some 2])]⟩

/-- A two-column concrete dataset whose row 1 is missing in column "B" only. -/
def exDF2 : DataFrame :=
  ⟨[0, 1, 2], [("A", [some 1, some 2, some 3]), ("B", [some 1, none, some 4])]⟩

/-- A concrete untransform (prepend a sentinel coordinate). -/
def utEx : List (Option ℚ) → List ℚ → List ℚ := fun _ p => 0 :: p

/-- A concrete transform (drop the sentinel coordinate again). -/
def trEx : List (Option ℚ) → List ℚ → List ℚ := fun _ p => p.tail

/-! Helper lemmas about the embedded operations. -/

/-- A successful `parse_output` returns precisely the solver's `x`. -/
lemma parse_output_ok_eq {out : SolverOutput} {x : List ℚ}
    (h : parse_output out = .ok x) : x = out.x := by
  unfold parse_output at h
  split at h
  · cases h
  · cases h; rfl

/-- A successful `parse_output` means the status code was 1, 2, 3 or 4. -/
lemma parse_output_ok_status {out : SolverOutput} {x : List ℚ}
    (h : parse_output out = .ok x) : out.ier ∈ ([1, 2, 3, 4] : List ℤ) := by
  unfold parse_output at h
  split at h
  · cases h
  · next hmem => exact not_not.mp hmem

/-- A bad status code means `parse_output` errors. -/
lemma parse_output_error_of_bad {out : SolverOutput}
    (h : out.ier ∉ ([1, 2, 3, 4] : List ℤ)) :
    parse_output out = .error ("A solution was not found. Message:\n" ++ out.mesg) := by
  unfold parse_output
  simp [h]

end MrFitting

namespace MrFitting

/-- C1: the solver adapter `parse_output` returns the solution vector
unchanged exactly when the solver's status code is 1, 2, 3 or 4, and for
any other status code it raises the convergence error (the `Warning`
standing for `FitConvergenceError`) whose message carries the solver's
diagnostic `mesg`; no parameter vector is returned in that case. -/
theorem parse_output_status_classification (out : SolverOutput) :
    (out.ier ∈ ([1, 2, 3, 4] : List ℤ) → parse_output out = .ok out.x) ∧
    (out.ier ∉ ([1, 2, 3, 4] : List ℤ) →
      parse_output out = .error ("A solution was not found. Message:\n" ++ out.mesg) ∧
      ∀ x, parse_output out ≠ .ok x) := by
  constructor
  · intro h
    unfold parse_output
    simp [h]
  · intro h
    refine ⟨parse_output_error_of_bad h, ?_⟩
    intro x hx
    exact h (parse_output_ok_status hx)

theorem parse_output_status_classification_witness :
    parse_output ⟨[5], "m", 1⟩ = .ok [5] ∧
    parse_output ⟨[5], "bad", 0⟩ = .error ("A solution was not found. Message:\n" ++ "bad") :=
  ⟨(parse_output_status_classification ⟨[5], "m", 1⟩).1 (by decide),
   ((parse_output_status_classification ⟨[5], "bad", 0⟩).2 (by decide)).1⟩

/-- C10: `fit` and `bound_fit` set the process-wide pandas option
`use_inf_as_null` to `True` on entry; when any column's solve fails the
exception propagates before `pd.reset_option` runs, so the option is left
enabled; only on the success path is it reset (to its default `False`). -/
theorem option_leak_on_failure (leastsq : ErrFn → List ℚ → SolverOutput)
    (lg : ℚ → Option ℚ) (func : ℚ → List ℚ → Option ℚ)
    (transform untransform : List (Option ℚ) → List ℚ → List ℚ)
    (df : DataFrame) (gp : GuessParams) (lr ex : Bool) (opts : PdOptions) :
    (∀ m, fit leastsq lg func df gp lr ex = .error m →
      (fit_state leastsq lg func df gp lr ex opts).2.use_inf_as_null = true) ∧
    (∀ t, fit leastsq lg func df gp lr ex = .ok t →
      (fit_state leastsq lg func df gp lr ex opts).2.use_inf_as_null = false) ∧
    (∀ m, bound_fit leastsq lg func transform untransform df gp lr ex = .error m →
      (bound_fit_state leastsq lg func transform untransform df gp lr ex
        opts).2.use_inf_as_null = true) ∧
    (∀ t, bound_fit leastsq lg func transform untransform df gp lr ex = .ok t →
      (bound_fit_state leastsq lg func transform untransform df gp lr ex
        opts).2.use_inf_as_null = false) := by
  refine ⟨fun m hm => ?_, fun t ht => ?_, fun m hm => ?_, fun t ht => ?_⟩
  · simp [fit_state, hm]
  · simp [fit_state, ht]
  · simp [bound_fit_state, hm]
  · simp [bound_fit_state, ht]

theorem option_leak_on_failure_witness :
    (fit_state lsFail lgEx funcEx exDF ⟨[3], .noindex⟩ false false
      ⟨false⟩).2.use_inf_as_null = true ∧
    (fit_state lsOK lgEx funcEx exDF ⟨[3], .noindex⟩ false false
      ⟨false⟩).2.use_inf_as_null = false :=
  ⟨(option_leak_on_failure lsFail lgEx funcEx trEx utEx exDF ⟨[3], .noindex⟩
      false false ⟨false⟩).1 ("A solution was not found. Message:\n" ++ "no conv")
      rfl,
   ((option_leak_on_failure lsOK lgEx funcEx trEx utEx exDF ⟨[3], .noindex⟩
      false false ⟨false⟩).2).1 ⟨[.str "a"], [.num 0], [[3]]⟩ rfl⟩

/-- If some column of the list makes the solver report a bad status, the
fit loop errors. -/
lemma fit_cols_error_of_bad (leastsq : ErrFn → List ℚ → SolverOutput)
    (lg : ℚ → Option ℚ) (func : ℚ → List ℚ → Option ℚ) (index : List ℚ)
    (guess : List ℚ) (lr ex : Bool) :
    ∀ l : List (String × List (Option ℚ)),
      (∃ c ∈ l, (leastsq (fit_err lg func index c.2 lr ex) guess).ier ∉
        ([1, 2, 3, 4] : List ℤ)) →
      ∃ m, fit_cols leastsq lg func index guess lr ex l = .error m := by
  intro l hl
  induction l with
  | nil => simp at hl
  | cons c rest ih =>
    obtain ⟨c', hc', hbad⟩ := hl
    cases hpo : parse_output (leastsq (fit_err lg func index c.2 lr ex) guess) with
    | error m => exact ⟨m, by simp only [fit_cols, hpo]; rfl⟩
    | ok b =>
      rcases List.mem_cons.mp hc' with rfl | hmem
      · exact absurd (parse_output_ok_status hpo) hbad
      · obtain ⟨m, hm⟩ := ih ⟨c', hmem, hbad⟩
        exact ⟨m, by simp only [fit_cols, hpo, hm]; rfl⟩

/-- If some column of the list makes the solver report a bad status (with
the bounded-fit error function and untransformed guess), the bounded fit
loop errors. -/
lemma bound_cols_error_of_bad (leastsq : ErrFn → List ℚ → SolverOutput)
    (lg : ℚ → Option ℚ) (func : ℚ → List ℚ → Option ℚ)
    (transform untransform : List (Option ℚ) → List ℚ → List ℚ)
    (index : List ℚ) (guess : List ℚ) (lr ex : Bool) :
    ∀ l : List (String × List (Option ℚ)),
      (∃ c ∈ l, (leastsq (bound_err lg func index c.2 lr ex)
        (untransform c.2 guess)).ier ∉ ([1, 2, 3, 4] : List ℤ)) →
      ∃ m, bound_cols leastsq lg func transform untransform index guess lr ex l =
        .error m := by
  intro l hl
  induction l with
  | nil => simp at hl
  | cons c rest ih =>
    obtain ⟨c', hc', hbad⟩ := hl
    cases hpo : parse_output (leastsq (bound_err lg func index c.2 lr ex)
        (untransform c.2 guess)) with
    | error m => exact ⟨m, by simp only [bound_cols, hpo]; rfl⟩
    | ok b =>
      rcases List.mem_cons.mp hc' with rfl | hmem
      · exact absurd (parse_output_ok_status hpo) hbad
      · obtain ⟨m, hm⟩ := ih ⟨c', hmem, hbad⟩
        exact ⟨m, by simp only [bound_cols, hpo, hm]; rfl⟩

/-- C9: in a multi-column call, a single column whose solve reports a
non-convergent status makes the whole `fit` (resp. `bound_fit`) call raise:
the call yields an error and no result table — not even a partial one — is
ever returned. -/
theorem whole_call_aborts_on_column_failure (leastsq : ErrFn → List ℚ → SolverOutput)
    (lg : ℚ → Option ℚ) (func : ℚ → List ℚ → Option ℚ)
    (transform untransform : List (Option ℚ) → List ℚ → List ℚ)
    (df : DataFrame) (gp : GuessParams) (lr ex : Bool) :
    ((∃ c ∈ (dropna df).cols,
        (leastsq (fit_err lg func (dropna df).index c.2 lr ex) gp.values).ier ∉
          ([1, 2, 3, 4] : List ℤ)) →
      (∃ m, fit leastsq lg func df gp lr ex = .error m) ∧
      ∀ t, fit leastsq lg func df gp lr ex ≠ .ok t) ∧
    ((∃ c ∈ (dropna df).cols,
        (leastsq (bound_err lg func (dropna df).index c.2 lr ex)
          (untransform c.2 gp.values)).ier ∉ ([1, 2, 3, 4] : List ℤ)) →
      (∃ m, bound_fit leastsq lg func transform untransform df gp lr ex = .error m) ∧
      ∀ t, bound_fit leastsq lg func transform untransform df gp lr ex ≠ .ok t) := by
  constructor
  · intro hbad
    obtain ⟨m, hm⟩ := fit_cols_error_of_bad leastsq lg func (dropna df).index
      gp.values lr ex (dropna df).cols hbad
    have hfit : fit leastsq lg func df gp lr ex = .error m := by
      simp [fit, fit_loop, Except.bind, hm]
    exact ⟨⟨m, hfit⟩, fun t ht => by rw [hfit] at ht; cases ht⟩
  · intro hbad
    obtain ⟨m, hm⟩ := bound_cols_error_of_bad leastsq lg func transform untransform
      (dropna df).index gp.values lr ex (dropna df).cols hbad
    have hfit : bound_fit leastsq lg func transform untransform df gp lr ex =
        .error m := by
      simp [bound_fit, bound_loop, Except.bind, hm]
    exact ⟨⟨m, hfit⟩, fun t ht => by rw [hfit] at ht; cases ht⟩

theorem whole_call_aborts_on_column_failure_witness :
    (∃ m, fit lsFail lgEx funcEx exDF ⟨[3], .noindex⟩ false false = .error m) ∧
    (∃ m, bound_fit lsFail lgEx funcEx trEx utEx exDF ⟨[3], .noindex⟩ false false =
      .error m) :=
  ⟨((whole_call_aborts_on_column_failure lsFail lgEx funcEx trEx utEx exDF
      ⟨[3], .noindex⟩ false false).1
      ⟨("a", [some 1, some 2]), by decide, by decide⟩).1,
   ((whole_call_aborts_on_column_failure lsFail lgEx funcEx trEx utEx exDF
      ⟨[3], .noindex⟩ false false).2
      ⟨("a", [some 1, some 2]), by decide, by decide⟩).1⟩

/-- C4: the row drop in `fit` and `bound_fit` is table-wide: a row with a
missing value in any column (here column `cB` at row `i`) fails the
row-validity test, is excluded from the kept positions, every column of the
dropped table is filtered down to exactly those globally kept positions
(so fitting one column still excludes a row whose value is missing only in
another column), and both `fit` and `bound_fit` run their per-column loops
on this globally dropped table. -/
theorem global_dropna_semantics (leastsq : ErrFn → List ℚ → SolverOutput)
    (lg : ℚ → Option ℚ) (func : ℚ → List ℚ → Option ℚ)
    (transform untransform : List (Option ℚ) → List ℚ → List ℚ)
    (df : DataFrame) (gp : GuessParams) (lr ex : Bool)
    (cB : String × List (Option ℚ)) (hB : cB ∈ df.cols) (i : ℕ)
    (hmiss : cB.2.getD i none = none) :
    validRow df i = false ∧
    i ∉ (List.range df.index.length).filter (validRow df) ∧
    (dropna df).cols = df.cols.map (fun c =>
      (c.1, ((List.range df.index.length).filter (validRow df)).map
        (fun j => c.2.getD j none))) ∧
    (∀ cA ∈ (dropna df).cols,
      cA.2.length = ((List.range df.index.length).filter (validRow df)).length) ∧
    fit leastsq lg func df gp lr ex =
      fit_loop leastsq lg func (dropna df) gp lr ex ∧
    bound_fit leastsq lg func transform untransform df gp lr ex =
      bound_loop leastsq lg func transform untransform (dropna df) gp lr ex := by
  have hv : validRow df i = false := by
    unfold validRow
    rw [List.all_eq_false]
    exact ⟨cB, hB, by rw [hmiss]; simp⟩
  refine ⟨hv, ?_, rfl, ?_, rfl, rfl⟩
  · intro hmem
    have := List.of_mem_filter hmem
    rw [hv] at this
    cases this
  · intro cA hA
    obtain ⟨c, _, rfl⟩ := List.mem_map.mp hA
    simp [List.length_map]

theorem global_dropna_semantics_witness :
    validRow exDF2 1 = false ∧
    1 ∉ (List.range exDF2.index.length).filter (validRow exDF2) ∧
    (∀ cA ∈ (dropna exDF2).cols,
      cA.2.length = ((List.range exDF2.index.length).filter (validRow exDF2)).length) :=
  have h := global_dropna_semantics lsOK lgEx funcEx trEx utEx exDF2
    ⟨[3], .noindex⟩ false false ("B", [some 1, none, some 4]) (by decide) 1
    (by decide)
  ⟨h.1, h.2.1, h.2.2.2.1⟩

/-- Eliminating a successful `fit`: the per-column loop succeeded and the
result table has the transposed shape. -/
lemma fit_ok_elim {leastsq : ErrFn → List ℚ → SolverOutput} {lg : ℚ → Option ℚ}
    {func : ℚ → List ℚ → Option ℚ} {df : DataFrame} {gp : GuessParams}
    {lr ex : Bool} {t : Table} (h : fit leastsq lg func df gp lr ex = .ok t) :
    ∃ rows, fit_cols leastsq lg func (dropna df).index gp.values lr ex
        (dropna df).cols = .ok rows ∧
      t = { rowLabels := (dropna df).cols.map (fun c => PLabel.str c.1),
            colLabels := param_index gp, entries := rows } := by
  unfold fit fit_loop at h
  cases hc : fit_cols leastsq lg func (dropna df).index gp.values lr ex
      (dropna df).cols with
  | error m => rw [hc] at h; cases h
  | ok rows =>
    rw [hc] at h
    cases h
    exact ⟨rows, rfl, rfl⟩

/-- `fit` errors exactly when its per-column loop errors. -/
lemma fit_error_iff {leastsq : ErrFn → List ℚ → SolverOutput} {lg : ℚ → Option ℚ}
    {func : ℚ → List ℚ → Option ℚ} {df : DataFrame} {gp : GuessParams}
    {lr ex : Bool} {m : String} :
    fit leastsq lg func df gp lr ex = .error m ↔
      fit_cols leastsq lg func (dropna df).index gp.values lr ex
        (dropna df).cols = .error m := by
  unfold fit fit_loop
  cases hc : fit_cols leastsq lg func (dropna df).index gp.values lr ex
      (dropna df).cols <;> simp

/-- Eliminating a successful `bound_fit`. -/
lemma bound_ok_elim {leastsq : ErrFn → List ℚ → SolverOutput} {lg : ℚ → Option ℚ}
    {func : ℚ → List ℚ → Option ℚ}
    {transform untransform : List (Option ℚ) → List ℚ → List ℚ}
    {df : DataFrame} {gp : GuessParams} {lr ex : Bool} {t : Table}
    (h : bound_fit leastsq lg func transform untransform df gp lr ex = .ok t) :
    ∃ rows, bound_cols leastsq lg func transform untransform (dropna df).index
        gp.values lr ex (dropna df).cols = .ok rows ∧
      t = { rowLabels := (dropna df).cols.map (fun c => PLabel.str c.1),
            colLabels := param_index gp, entries := rows } := by
  unfold bound_fit bound_loop at h
  cases hc : bound_cols leastsq lg func transform untransform (dropna df).index
      gp.values lr ex (dropna df).cols with
  | error m => rw [hc] at h; cases h
  | ok rows =>
    rw [hc] at h
    cases h
    exact ⟨rows, rfl, rfl⟩

/-- `bound_fit` errors exactly when its per-column loop errors. -/
lemma bound_error_iff {leastsq : ErrFn → List ℚ → SolverOutput} {lg : ℚ → Option ℚ}
    {func : ℚ → List ℚ → Option ℚ}
    {transform untransform : List (Option ℚ) → List ℚ → List ℚ}
    {df : DataFrame} {gp : GuessParams} {lr ex : Bool} {m : String} :
    bound_fit leastsq lg func transform untransform df gp lr ex = .error m ↔
      bound_cols leastsq lg func transform untransform (dropna df).index
        gp.values lr ex (dropna df).cols = .error m := by
  unfold bound_fit bound_loop
  cases hc : bound_cols leastsq lg func transform untransform (dropna df).index
      gp.values lr ex (dropna df).cols <;> simp

/-- C7: when the guess container carries a valid label index, the result
table's parameter columns carry exactly those labels in that order; when
the container carries no index or its label metadata is malformed, `fit`
and `bound_fit` silently fall back to the positional labels `0..n-1`; and
the label metadata never causes a failure: with the same guess values,
the call errors under one label variant exactly when it errors under any
other (errors come only from the solver status). -/
theorem guess_label_handling (leastsq : ErrFn → List ℚ → SolverOutput)
    (lg : ℚ → Option ℚ) (func : ℚ → List ℚ → Option ℚ)
    (transform untransform : List (Option ℚ) → List ℚ → List ℚ)
    (df : DataFrame) (vals : List ℚ) (lr ex : Bool) :
    (∀ ls t, fit leastsq lg func df ⟨vals, .valid ls⟩ lr ex = .ok t →
      t.colLabels = ls) ∧
    (∀ g t, (g = GuessIndex.noindex ∨ g = GuessIndex.malformed) →
      fit leastsq lg func df ⟨vals, g⟩ lr ex = .ok t →
      t.colLabels = (List.range vals.length).map PLabel.num) ∧
    (∀ g₁ g₂ m, fit leastsq lg func df ⟨vals, g₁⟩ lr ex = .error m ↔
      fit leastsq lg func df ⟨vals, g₂⟩ lr ex = .error m) ∧
    (∀ ls t, bound_fit leastsq lg func transform untransform df ⟨vals, .valid ls⟩
      lr ex = .ok t → t.colLabels = ls) ∧
    (∀ g t, (g = GuessIndex.noindex ∨ g = GuessIndex.malformed) →
      bound_fit leastsq lg func transform untransform df ⟨vals, g⟩ lr ex = .ok t →
      t.colLabels = (List.range vals.length).map PLabel.num) ∧
    (∀ g₁ g₂ m, bound_fit leastsq lg func transform untransform df ⟨vals, g₁⟩
        lr ex = .error m ↔
      bound_fit leastsq lg func transform untransform df ⟨vals, g₂⟩ lr ex =
        .error m) := by
  refine ⟨?_, ?_, ?_, ?_, ?_, ?_⟩
  · intro ls t h
    obtain ⟨rows, _, rfl⟩ := fit_ok_elim h
    rfl
  · intro g t hg h
    obtain ⟨rows, _, rfl⟩ := fit_ok_elim h
    rcases hg with rfl | rfl <;> rfl
  · intro g₁ g₂ m
    rw [fit_error_iff, fit_error_iff]
  · intro ls t h
    obtain ⟨rows, _, rfl⟩ := bound_ok_elim h
    rfl
  · intro g t hg h
    obtain ⟨rows, _, rfl⟩ := bound_ok_elim h
    rcases hg with rfl | rfl <;> rfl
  · intro g₁ g₂ m
    rw [bound_error_iff, bound_error_iff]

theorem guess_label_handling_witness :
    (∃ t, fit lsOK lgEx funcEx exDF ⟨[3, 4], .valid [.str "scale", .str "rate"]⟩
        false false = .ok t ∧ t.colLabels = [.str "scale", .str "rate"]) ∧
    (∃ t, fit lsOK lgEx funcEx exDF ⟨[3, 4], .malformed⟩ false false = .ok t ∧
      t.colLabels = [.num 0, .num 1]) :=
  ⟨⟨⟨[.str "a"], [.str "scale", .str "rate"], [[3, 4]]⟩, rfl,
    (guess_label_handling lsOK lgEx funcEx trEx utEx exDF [3, 4] false false).1
      [.str "scale", .str "rate"] _ rfl⟩,
   ⟨⟨[.str "a"], [.num 0, .num 1], [[3, 4]]⟩, rfl,
    (guess_label_handling lsOK lgEx funcEx trEx utEx exDF [3, 4] false
      false).2.1 .malformed _ (Or.inr rfl) rfl⟩⟩

/-- Indexing into a successful bounded-fit loop: row `j` comes from solving
column `j` with the untransformed guess and transforming the solution. -/
lemma bound_cols_ok_get (leastsq : ErrFn → List ℚ → SolverOutput)
    (lg : ℚ → Option ℚ) (func : ℚ → List ℚ → Option ℚ)
    (transform untransform : List (Option ℚ) → List ℚ → List ℚ)
    (index : List ℚ) (guess : List ℚ) (lr ex : Bool) :
    ∀ (l : List (String × List (Option ℚ))) (rows : List (List ℚ)),
      bound_cols leastsq lg func transform untransform index guess lr ex l =
        .ok rows →
      ∀ (j : ℕ) (c : String × List (Option ℚ)), l[j]? = some c →
        ∃ best,
          parse_output (leastsq (bound_err lg func index c.2 lr ex)
            (untransform c.2 guess)) = .ok best ∧
          rows[j]? = some (transform c.2 best) := by
  intro l
  induction l with
  | nil =>
    intro rows _ j c hj
    simp at hj
  | cons c0 rest ih =>
    intro rows h j c hj
    cases hpo : parse_output (leastsq (bound_err lg func index c0.2 lr ex)
        (untransform c0.2 guess)) with
    | error m =>
      have hbc : bound_cols leastsq lg func transform untransform index guess
          lr ex (c0 :: rest) = .error m := by
        simp only [bound_cols, hpo]; rfl
      rw [hbc] at h
      cases h
    | ok b =>
      cases hrest : bound_cols leastsq lg func transform untransform index guess
          lr ex rest with
      | error m =>
        have hbc : bound_cols leastsq lg func transform untransform index guess
            lr ex (c0 :: rest) = .error m := by
          simp only [bound_cols, hpo, hrest]; rfl
        rw [hbc] at h
        cases h
      | ok rr =>
        have hbc : bound_cols leastsq lg func transform untransform index guess
            lr ex (c0 :: rest) = .ok (transform c0.2 b :: rr) := by
          simp only [bound_cols, hpo, hrest]; rfl
        rw [hbc] at h
        cases h
        cases j with
        | zero =>
          simp only [List.getElem?_cons_zero, Option.some.injEq] at hj
          subst hj
          exact ⟨b, hpo, by simp⟩
        | succ j =>
          simp only [List.getElem?_cons_succ] at hj ⊢
          exact ih rr hrest j c hj

/-- C5: in `bound_fit`, for every column of the (dropped) input the initial
vector handed to the solver is `untransform(column_data, *guess_params)`,
the solver optimizes the bounded-fit residual in that untransformed space,
and the row reported for the column is `transform(column_data, *solution)`;
both `transform` and `untransform` receive the data of the column currently
being fit. -/
theorem bound_fit_transform_protocol (leastsq : ErrFn → List ℚ → SolverOutput)
    (lg : ℚ → Option ℚ) (func : ℚ → List ℚ → Option ℚ)
    (transform untransform : List (Option ℚ) → List ℚ → List ℚ)
    (df : DataFrame) (gp : GuessParams) (lr ex : Bool) (t : Table)
    (hok : bound_fit leastsq lg func transform untransform df gp lr ex = .ok t) :
    ∀ (j : ℕ) (c : String × List (Option ℚ)), (dropna df).cols[j]? = some c →
      ∃ best,
        parse_output (leastsq (bound_err lg func (dropna df).index c.2 lr ex)
          (untransform c.2 gp.values)) = .ok best ∧
        t.entries[j]? = some (transform c.2 best) := by
  obtain ⟨rows, hrows, rfl⟩ := bound_ok_elim hok
  intro j c hj
  exact bound_cols_ok_get leastsq lg func transform untransform (dropna df).index
    gp.values lr ex (dropna df).cols rows hrows j c hj

theorem bound_fit_transform_protocol_witness :
    ∃ best,
      parse_output (lsOK (bound_err lgEx funcEx (dropna exDF).index
        [some 1, some 2] false false) (utEx [some 1, some 2] [3])) = .ok best ∧
      (⟨[.str "a"], [.num 0], [[3]]⟩ : Table).entries[0]? =
        some (trEx [some 1, some 2] best) :=
  bound_fit_transform_protocol lsOK lgEx funcEx trEx utEx exDF ⟨[3], .noindex⟩
    false false ⟨[.str "a"], [.num 0], [[3]]⟩ (by rfl) 0 ("a", [some 1, some 2])
    (by decide)

/-- C8: for every parameter vector the residual is target − predicted
elementwise, the predicted values being `func` applied elementwise to the
input sequence: with `exog_columns` off the input is the exogenous index
and the target is the response column; with `log_residual` the residual is
log(target) − log(predicted) instead; with `exog_columns` on the roles
swap — the column's values become the input of `func` and the index values
become the target.  `fit` hands the solver exactly this residual with the
invalid-entry mask applied to every position. -/
theorem residual_target_minus_predicted (lg : ℚ → Option ℚ)
    (func : ℚ → List ℚ → Option ℚ) (index : List ℚ)
    (colVals : List (Option ℚ)) (params : List ℚ) :
    (∀ (i : ℕ) (y : Option ℚ) (x : ℚ), colVals[i]? = some y → index[i]? = some x →
      (raw_residual lg func index colVals false false params)[i]? =
        some (osub y (func x params)) ∧
      (raw_residual lg func index colVals true false params)[i]? =
        some (osub (olog lg y) (olog lg (func x params))) ∧
      (raw_residual lg func index colVals false true params)[i]? =
        some (osub (some x) (y.bind (fun v => func v params))) ∧
      (raw_residual lg func index colVals true true params)[i]? =
        some (osub (olog lg (some x)) (olog lg (y.bind (fun v => func v params))))) ∧
    (∀ lr ex, fit_err lg func index colVals lr ex params =
      (raw_residual lg func index colVals lr ex params).map
        (fun o => some (o.getD 0))) := by
  constructor
  · intro i y x hy hx
    refine ⟨?_, ?_, ?_, ?_⟩ <;>
      simp [raw_residual, List.getElem?_zipWith, List.getElem?_map, hy, hx]
  · intro lr ex
    rfl

theorem residual_target_minus_predicted_witness :
    (raw_residual lgEx funcNaN [0, 1] [some 5, some 7] false false [])[0]? =
      some (osub (some 5) (funcNaN 0 [])) ∧
    (raw_residual lgEx funcNaN [0, 1] [some 5, some 7] false true [])[0]? =
      some (osub (some 0) ((some (5 : ℚ)).bind (fun v => funcNaN v []))) :=
  have h := (residual_target_minus_predicted lgEx funcNaN [0, 1]
    [some 5, some 7] []).1 0 (some 5) 0 (by decide) (by decide)
  ⟨h.1, h.2.2.1⟩

/-- C2 counterexample: with `log_residual` off, the residual builder of
`bound_fit` does not replace the invalid entry at position 0 — it stays
NaN — although valid residual entries exist (a mean was available); so the
claim that `bound_fit` replaces every invalid residual entry with twice
the mean of the valid residuals is false at this input. -/
theorem bound_fit_no_linear_fill_counterexample :
    (bound_err lgEx funcNaN [0, 1] [some 5, some 7] false false [])[0]? =
      some none ∧
    omean (raw_residual lgEx funcNaN [0, 1] [some 5, some 7] false false []) =
      some 6 ∧
    (bound_err lgEx funcNaN [0, 1] [some 5, some 7] false false [])[0]? ≠
      some (some (2 * 6)) := by
  refine ⟨by decide, ?_, by decide⟩
  norm_num [omean, raw_residual, funcNaN, lgEx, osub, olog,
    List.filterMap_cons, List.filterMap_nil, List.sum_cons, List.sum_nil]

/-- C2 (amended): `fit` masks every invalid residual entry to exactly 0 in
both residual modes; `bound_fit` masks invalid entries to twice the mean of
the valid residuals only in the `log_residual` mode and leaves them
unreplaced (NaN) in the linear mode; consequently, at every masked
position the two residual vectors differ — unconditionally in the linear
mode, and in the log mode whenever the mean of the valid residuals is
nonzero. -/
theorem masking_asymmetry (lg : ℚ → Option ℚ) (func : ℚ → List ℚ → Option ℚ)
    (index : List ℚ) (colVals : List (Option ℚ)) (ex : Bool) (params : List ℚ)
    (i : ℕ) :
    (∀ lr, (raw_residual lg func index colVals lr ex params)[i]? = some none →
      (fit_err lg func index colVals lr ex params)[i]? = some (some 0)) ∧
    ((raw_residual lg func index colVals true ex params)[i]? = some none →
      (bound_err lg func index colVals true ex params)[i]? =
        some ((omean (raw_residual lg func index colVals true ex params)).map
          (fun m => 2 * m))) ∧
    (bound_err lg func index colVals false ex params =
      raw_residual lg func index colVals false ex params) ∧
    ((raw_residual lg func index colVals false ex params)[i]? = some none →
      (fit_err lg func index colVals false ex params)[i]? ≠
        (bound_err lg func index colVals false ex params)[i]?) ∧
    (∀ m : ℚ, (raw_residual lg func index colVals true ex params)[i]? = some none →
      omean (raw_residual lg func index colVals true ex params) = some m →
      m ≠ 0 →
      (fit_err lg func index colVals true ex params)[i]? ≠
        (bound_err lg func index colVals true ex params)[i]?) := by
  have hfill : ∀ lr, (raw_residual lg func index colVals lr ex params)[i]? =
      some none →
      (fit_err lg func index colVals lr ex params)[i]? = some (some 0) := by
    intro lr h
    unfold fit_err
    rw [List.getElem?_map, h]
    rfl
  have hlogfill : (raw_residual lg func index colVals true ex params)[i]? =
      some none →
      (bound_err lg func index colVals true ex params)[i]? =
        some ((omean (raw_residual lg func index colVals true ex params)).map
          (fun m => 2 * m)) := by
    intro h
    have hbe : bound_err lg func index colVals true ex params =
        (raw_residual lg func index colVals true ex params).map
          (fun o => match o with
            | some x => some x
            | none => (omean (raw_residual lg func index colVals true ex
                params)).map (fun m => 2 * m)) := rfl
    rw [hbe, List.getElem?_map, h]
    rfl
  have hnone : bound_err lg func index colVals false ex params =
      raw_residual lg func index colVals false ex params := rfl
  refine ⟨hfill, hlogfill, hnone, ?_, ?_⟩
  · intro h
    rw [hfill false h, hnone, h]
    simp
  · intro m h hm hm0
    rw [hfill true h, hlogfill h, hm]
    intro habs
    simp only [Option.map_some', Option.some.injEq] at habs
    exact hm0 (by linarith)

theorem masking_asymmetry_witness :
    (fit_err lgEx funcNaN [0, 1] [some 5, some 7] false false [])[0]? =
      some (some 0) ∧
    (fit_err lgEx funcNaN [0, 1] [some 5, some 7] false false [])[0]? ≠
      (bound_err lgEx funcNaN [0, 1] [some 5, some 7] false false [])[0]? ∧
    (fit_err lgEx funcNaN [0, 1] [some 5, some 7] true false [])[0]? ≠
      (bound_err lgEx funcNaN [0, 1] [some 5, some 7] true false [])[0]? :=
  have hM := masking_asymmetry lgEx funcNaN [0, 1] [some 5, some 7] false [] 0
  have hmean : omean (raw_residual lgEx funcNaN [0, 1] [some 5, some 7]
      true false []) = some 6 := by
    norm_num [omean, raw_residual, funcNaN, lgEx, osub, olog,
      List.filterMap_cons, List.filterMap_nil, List.sum_cons, List.sum_nil]
  ⟨hM.1 false (by decide), hM.2.2.2.1 (by decide),
   hM.2.2.2.2 6 (by decide) hmean (by norm_num)⟩

/-- C3 counterexample: with a regression stub returning slope 2 and
intercept 3, and exp the identity, the result cell labelled 'n' holds
exp(intercept) = 3 rather than the slope 2, and the cell labelled 'A'
holds the slope: `fit_powerlaw` assigns the slope to 'A' and
exp(intercept) to 'n', the opposite of the claimed labelling. -/
theorem fit_powerlaw_labels_counterexample :
    (fit_powerlaw (fun _ _ => (2, 3)) (fun x => x) exDF).cell (.str "n")
      (.str "a") = some 3 ∧
    (fit_powerlaw (fun _ _ => (2, 3)) (fun x => x) exDF).cell (.str "n")
      (.str "a") ≠ some 2 ∧
    (fit_powerlaw (fun _ _ => (2, 3)) (fun x => x) exDF).cell (.str "A")
      (.str "a") = some 2 := by
  exact ⟨by decide, by decide, by decide⟩

/-- C3 (amended): for every input table, `fit_powerlaw` computes, for each
column, slope and intercept by the external linear regression applied to
the raw index values and the column's raw values (no dropna, no log), and
reports the parameter labelled 'A' equal to the slope and the parameter
labelled 'n' equal to exp(intercept). -/
theorem fit_powerlaw_formula (LR : List ℚ → List (Option ℚ) → ℚ × ℚ)
    (E : ℚ → ℚ) (df : DataFrame) :
    (fit_powerlaw LR E df).rowLabels = [PLabel.str "A", PLabel.str "n"] ∧
    (fit_powerlaw LR E df).colLabels = df.cols.map (fun c => PLabel.str c.1) ∧
    ∀ (j : ℕ) (c : String × List (Option ℚ)), df.cols[j]? = some c →
      ((fit_powerlaw LR E df).entries.getD 0 [])[j]? =
        some (LR df.index c.2).1 ∧
      ((fit_powerlaw LR E df).entries.getD 1 [])[j]? =
        some (E (LR df.index c.2).2) := by
  refine ⟨rfl, rfl, ?_⟩
  intro j c hj
  constructor
  · show ((df.cols.map (fun c => LR df.index c.2)).map (fun si => si.1))[j]? = _
    rw [List.getElem?_map, List.getElem?_map, hj]
    rfl
  · show ((df.cols.map (fun c => LR df.index c.2)).map (fun si => E si.2))[j]? = _
    rw [List.getElem?_map, List.getElem?_map, hj]
    rfl

theorem fit_powerlaw_formula_witness :
    ((fit_powerlaw (fun _ _ => ((2 : ℚ), (3 : ℚ))) (fun x => x)
      exDF).entries.getD 0 [])[0]? = some 2 ∧
    ((fit_powerlaw (fun _ _ => ((2 : ℚ), (3 : ℚ))) (fun x => x)
      exDF).entries.getD 1 [])[0]? = some 3 :=
  have h := (fit_powerlaw_formula (fun _ _ => (2, 3)) (fun x => x) exDF).2.2 0
    ("a", [some 1, some 2]) (by decide)
  ⟨h.1, h.2⟩

/-- Rows of a successful fit loop: one per column, each being the solver's
solution vector for that column. -/
lemma fit_cols_ok_shape (leastsq : ErrFn → List ℚ → SolverOutput)
    (lg : ℚ → Option ℚ) (func : ℚ → List ℚ → Option ℚ) (index : List ℚ)
    (guess : List ℚ) (lr ex : Bool) :
    ∀ (l : List (String × List (Option ℚ))) (rows : List (List ℚ)),
      fit_cols leastsq lg func index guess lr ex l = .ok rows →
      rows.length = l.length ∧
      ∀ r ∈ rows, ∃ c ∈ l,
        r = (leastsq (fit_err lg func index c.2 lr ex) guess).x := by
  intro l
  induction l with
  | nil =>
    intro rows h
    simp only [fit_cols] at h
    cases h
    exact ⟨rfl, by simp⟩
  | cons c0 rest ih =>
    intro rows h
    cases hpo : parse_output (leastsq (fit_err lg func index c0.2 lr ex) guess) with
    | error m =>
      have hbc : fit_cols leastsq lg func index guess lr ex (c0 :: rest) =
          .error m := by
        simp only [fit_cols, hpo]; rfl
      rw [hbc] at h
      cases h
    | ok b =>
      cases hrest : fit_cols leastsq lg func index guess lr ex rest with
      | error m =>
        have hbc : fit_cols leastsq lg func index guess lr ex (c0 :: rest) =
            .error m := by
          simp only [fit_cols, hpo, hrest]; rfl
        rw [hbc] at h
        cases h
      | ok rr =>
        have hbc : fit_cols leastsq lg func index guess lr ex (c0 :: rest) =
            .ok (b :: rr) := by
          simp only [fit_cols, hpo, hrest]; rfl
        rw [hbc] at h
        cases h
        obtain ⟨hlen, hmem⟩ := ih rr hrest
        refine ⟨by simp [hlen], ?_⟩
        intro r hr
        rcases List.mem_cons.mp hr with rfl | hr
        · exact ⟨c0, List.mem_cons_self _ _, parse_output_ok_eq hpo⟩
        · obtain ⟨c, hc, hceq⟩ := hmem r hr
          exact ⟨c, List.mem_cons_of_mem _ hc, hceq⟩

/-- Rows of a successful bounded-fit loop: one per column, each being the
transform of the solver's solution for the untransformed guess. -/
lemma bound_cols_ok_shape (leastsq : ErrFn → List ℚ → SolverOutput)
    (lg : ℚ → Option ℚ) (func : ℚ → List ℚ → Option ℚ)
    (transform untransform : List (Option ℚ) → List ℚ → List ℚ)
    (index : List ℚ) (guess : List ℚ) (lr ex : Bool) :
    ∀ (l : List (String × List (Option ℚ))) (rows : List (List ℚ)),
      bound_cols leastsq lg func transform untransform index guess lr ex l =
        .ok rows →
      rows.length = l.length ∧
      ∀ r ∈ rows, ∃ c ∈ l,
        r = transform c.2 ((leastsq (bound_err lg func index c.2 lr ex)
          (untransform c.2 guess)).x) := by
  intro l
  induction l with
  | nil =>
    intro rows h
    simp only [bound_cols] at h
    cases h
    exact ⟨rfl, by simp⟩
  | cons c0 rest ih =>
    intro rows h
    cases hpo : parse_output (leastsq (bound_err lg func index c0.2 lr ex)
        (untransform c0.2 guess)) with
    | error m =>
      have hbc : bound_cols leastsq lg func transform untransform index guess
          lr ex (c0 :: rest) = .error m := by
        simp only [bound_cols, hpo]; rfl
      rw [hbc] at h
      cases h
    | ok b =>
      cases hrest : bound_cols leastsq lg func transform untransform index guess
          lr ex rest with
      | error m =>
        have hbc : bound_cols leastsq lg func transform untransform index guess
            lr ex (c0 :: rest) = .error m := by
          simp only [bound_cols, hpo, hrest]; rfl
        rw [hbc] at h
        cases h
      | ok rr =>
        have hbc : bound_cols leastsq lg func transform untransform index guess
            lr ex (c0 :: rest) = .ok (transform c0.2 b :: rr) := by
          simp only [bound_cols, hpo, hrest]; rfl
        rw [hbc] at h
        cases h
        obtain ⟨hlen, hmem⟩ := ih rr hrest
        refine ⟨by simp [hlen], ?_⟩
        intro r hr
        rcases List.mem_cons.mp hr with rfl | hr
        · exact ⟨c0, List.mem_cons_self _ _, by rw [parse_output_ok_eq hpo]⟩
        · obtain ⟨c, hc, hceq⟩ := hmem r hr
          exact ⟨c, List.mem_cons_of_mem _ hc, hceq⟩

/-- The extracted parameter index always has as many labels as there are
guess values (for a valid carried index this is the pandas invariant that
a Series' index matches its length, taken as a hypothesis). -/
lemma param_index_length {gp : GuessParams}
    (hlab : ∀ ls, gp.gindex = .valid ls → ls.length = gp.values.length) :
    (param_index gp).length = gp.values.length := by
  cases hg : gp.gindex with
  | valid ls => rw [param_index, hg]; exact hlab ls hg
  | noindex => rw [param_index, hg]; simp
  | malformed => rw [param_index, hg]; simp

/-- C6 counterexample: on a one-column input, `fit_powerlaw` returns a
table with two rows (labelled 'A' and 'n') and one column — not one row
per input data column — so the claimed uniform shape is false for
`fit_powerlaw`. -/
theorem fit_powerlaw_shape_counterexample :
    (fit_powerlaw (fun _ _ => (1, 1)) (fun x => x) exDF).rowLabels.length = 2 ∧
    exDF.cols.length = 1 ∧
    (fit_powerlaw (fun _ _ => (1, 1)) (fun x => x) exDF).rowLabels.length ≠
      exDF.cols.length := by
  exact ⟨rfl, rfl, by decide⟩

/-- C6 (amended): every successful `fit` and `bound_fit` call returns a
table with exactly one row per input data column and exactly one column
per guess parameter, labelled by the parameter index (assuming the solver
and the transforms return vectors of their input guess's length, and a
carried label index has the guess's length — the pandas Series invariant);
a single-column Series input is the one-column table case.  `fit_powerlaw`
instead returns the transpose: rows labelled 'A' and 'n' — one per
parameter — and one column per input data column. -/
theorem fit_result_shape (leastsq : ErrFn → List ℚ → SolverOutput)
    (lg : ℚ → Option ℚ) (func : ℚ → List ℚ → Option ℚ)
    (transform untransform : List (Option ℚ) → List ℚ → List ℚ)
    (LR : List ℚ → List (Option ℚ) → ℚ × ℚ) (E : ℚ → ℚ)
    (df : DataFrame) (gp : GuessParams) (lr ex : Bool)
    (hsol : ∀ (ef : ErrFn) (g : List ℚ), ((leastsq ef g).x).length = g.length)
    (hut : ∀ (cv : List (Option ℚ)) (p : List ℚ),
      (untransform cv p).length = p.length)
    (htr : ∀ (cv : List (Option ℚ)) (p : List ℚ),
      (transform cv p).length = p.length)
    (hlab : ∀ ls, gp.gindex = .valid ls → ls.length = gp.values.length) :
    (∀ t, fit leastsq lg func df gp lr ex = .ok t →
      t.rowLabels.length = df.cols.length ∧
      t.colLabels = param_index gp ∧
      t.colLabels.length = gp.values.length ∧
      t.entries.length = df.cols.length ∧
      ∀ r ∈ t.entries, r.length = gp.values.length) ∧
    (∀ t, bound_fit leastsq lg func transform untransform df gp lr ex = .ok t →
      t.rowLabels.length = df.cols.length ∧
      t.colLabels = param_index gp ∧
      t.colLabels.length = gp.values.length ∧
      t.entries.length = df.cols.length ∧
      ∀ r ∈ t.entries, r.length = gp.values.length) ∧
    ((fit_powerlaw LR E df).rowLabels = [PLabel.str "A", PLabel.str "n"] ∧
      (fit_powerlaw LR E df).colLabels.length = df.cols.length ∧
      (fit_powerlaw LR E df).entries.length = 2 ∧
      ∀ r ∈ (fit_powerlaw LR E df).entries, r.length = df.cols.length) := by
  have hdcols : (dropna df).cols.length = df.cols.length := by
    simp [dropna]
  refine ⟨?_, ?_, ?_⟩
  · intro t ht
    obtain ⟨rows, hrows, rfl⟩ := fit_ok_elim ht
    obtain ⟨hlen, hmem⟩ := fit_cols_ok_shape leastsq lg func (dropna df).index
      gp.values lr ex (dropna df).cols rows hrows
    refine ⟨by simp [hdcols], rfl, param_index_length hlab, by simp [hlen, hdcols], ?_⟩
    intro r hr
    obtain ⟨c, _, rfl⟩ := hmem r hr
    exact hsol _ _
  · intro t ht
    obtain ⟨rows, hrows, rfl⟩ := bound_ok_elim ht
    obtain ⟨hlen, hmem⟩ := bound_cols_ok_shape leastsq lg func transform
      untransform (dropna df).index gp.values lr ex (dropna df).cols rows hrows
    refine ⟨by simp [hdcols], rfl, param_index_length hlab, by simp [hlen, hdcols], ?_⟩
    intro r hr
    obtain ⟨c, _, rfl⟩ := hmem r hr
    rw [htr, hsol, hut]
  · refine ⟨rfl, by simp [fit_powerlaw], rfl, ?_⟩
    intro r hr
    rcases List.mem_cons.mp hr with rfl | hr
    · simp [fit_powerlaw]
    rcases List.mem_cons.mp hr with rfl | hr
    · simp [fit_powerlaw]
    · cases hr

theorem fit_result_shape_witness :
    (⟨[.str "a"], [.num 0], [[3]]⟩ : Table).rowLabels.length =
      exDF.cols.length ∧
    (⟨[.str "a"], [.num 0], [[3]]⟩ : Table).entries.length =
      exDF.cols.length ∧
    (fit_powerlaw (fun _ _ => ((1 : ℚ), (1 : ℚ))) (fun x => x)
      exDF).rowLabels = [PLabel.str "A", PLabel.str "n"] :=
  have h := fit_result_shape lsOK lgEx funcEx (fun _ p => p) (fun _ p => p)
    (fun _ _ => (1, 1)) (fun x => x) exDF ⟨[3], .noindex⟩ false false
    (fun _ _ => rfl) (fun _ _ => rfl) (fun _ _ => rfl) (fun ls hls => nomatch hls)
  have h1 := h.1 ⟨[.str "a"], [.num 0], [[3]]⟩ (by rfl)
  ⟨h1.1, h1.2.2.2.1, h.2.2.1⟩

end MrFitting
